import Mathlib

/-!
Verification of the sandboxed filesystem bridge and workspace/tree state
manager of the AI-notes desktop application.

The definitions below are shallow embeddings of the JavaScript source:

* the Electron main-process IPC handlers `fs:getDirectoryContents`,
  `fs:readFile` and `fs:saveFile` (main process file, lines 183-301),
  including their path-containment security check;
* the React `App` component's workspace callbacks `handleOpenFile`,
  `handleCloseFile`, `handleSetRootDirectory` and the startup helper
  `loadSavedFiles` (App.jsx);
* the `FolderItem` lazy-loading effect of `FileTree.jsx`, modelled as a
  per-node state machine driven by expand/collapse/fetch-resolution
  events.

Filesystem access is modelled by an explicit association-list filesystem,
and every operation additionally returns the list of filesystem (or
bridge) calls it performs, so that short-circuit / call-count properties
are expressible.
-/

namespace AiNotes

/-- Lower-cased code point of a character (ASCII letters only).  This is
the model of the case-insensitive (`sensitivity: 'base'`)
`localeCompare` comparison used by the directory-listing comparators. -/
def lowerCode (c : Char) : Nat :=
  if 65 ≤ c.toNat && c.toNat ≤ 90 then c.toNat + 32 else c.toNat

/-- Lexicographic order on lists of code points. -/
def lexLeNat : List Nat → List Nat → Bool
  | [], _ => true
  | _ :: _, [] => false
  | a :: as, b :: bs => if a < b then true else if b < a then false else lexLeNat as bs

/-- Case-insensitive string comparison: `a.localeCompare(b, undefined,
{ sensitivity: 'base' }) <= 0`, modelled as lexicographic comparison of
lower-cased code points. -/
def caseLe (a b : String) : Bool :=
  lexLeNat (a.data.map lowerCode) (b.data.map lowerCode)

/-- Split a character list on a separator character; mirrors
`String.prototype.split` on a single-character pattern (`"".split`
yields one empty group, separators at the ends yield empty groups). -/
def splitChar (sep : Char) : List Char → List (List Char)
  | [] => [[]]
  | c :: cs =>
    let r := splitChar sep cs
    if c = sep then [] :: r
    else
      match r with
      | [] => [[c]]
      | g :: gs => (c :: g) :: gs

/-- Model of the library function `path.normalize` (POSIX flavour) used
by the main-process handlers: split on the separator, drop empty and `.`
segments, resolve `..` against the preceding segment (dropping it at the
root of an absolute path, keeping it for relative paths), and rejoin.
Trailing-separator preservation is not modelled. -/
def pathNormalize (p : String) : String :=
  let cs := p.data
  let isAbs : Bool := cs.head? = some '/'
  let comps := (splitChar '/' cs).filter (fun c => !(c = [] || c = ['.']))
  let resolved := comps.foldl (fun (acc : List (List Char)) c =>
    if c = ['.', '.'] then
      match acc with
      | [] => if isAbs then [] else [c]
      | prev :: rest => if prev = ['.', '.'] then c :: acc else rest
    else c :: acc) []
  let body := List.intercalate ['/'] resolved.reverse
  if isAbs then ⟨'/' :: body⟩
  else if body = [] then "."
  else ⟨body⟩

/-- `s.startsWith(pre)` on strings, computed on the underlying character
lists. -/
def strStartsWith (s pre : String) : Bool :=
  pre.data.isPrefixOf s.data

/-- The main-process containment check, exactly as written in each of the
three IPC handlers:
`path.normalize(requested).startsWith(path.normalize(rootDir))` —
a raw string-prefix comparison of the two normalized paths. -/
def containsCheck (rootDir requested : String) : Bool :=
  strStartsWith (pathNormalize requested) (pathNormalize rootDir)

/-- PathGuard containment as the specification words it (§4.1):
containment holds iff the normalized candidate equals the normalized
root, or begins with the root followed immediately by a path-separator
boundary.  This definition follows the spec's words and exists to be
compared against `containsCheck`, the check the code actually runs. -/
def validateSpecModel (root candidate : String) : Bool :=
  let n := pathNormalize candidate
  let r := pathNormalize root
  n = r || strStartsWith n ⟨r.data ++ ['/']⟩

/-- Model of the library function `path.dirname` (POSIX): everything
before the last separator. -/
def dirname (p : String) : String :=
  let comps := splitChar '/' p.data
  let body := List.intercalate ['/'] comps.dropLast
  if body = [] then (if p.data.head? = some '/' then "/" else ".") else ⟨body⟩

/-- The renderer's separator normalization `p.replace(/\\/g, '/')`. -/
def normalizeSeps (p : String) : String :=
  ⟨p.data.map (fun c => if c = '\\' then '/' else c)⟩

/-- The renderer's file-name extraction `filePath.split(/[/\\]/).pop()`. -/
def fileNameOf (p : String) : String :=
  ⟨(splitChar '/' (normalizeSeps p).data).getLastD []⟩

/-- The renderer-side containment test used by `handleOpenFile` and
`loadSavedFiles`: separator-normalize both paths and compare by raw
string prefix. -/
def rendererContains (rootDir p : String) : Bool :=
  strStartsWith (normalizeSeps p) (normalizeSeps rootDir)

/-- One filesystem item as returned by `fs:getDirectoryContents`
(name, absolute path, kind, and the stat data attached at listing time). -/
structure DirEntry where
  name : String
  path : String
  isDirectory : Bool
  size : Nat
  lastModified : String
deriving Repr, DecidableEq

/-- The listing comparator shared by the main-process sort and the
`FileTree.jsx` `sortItems` helper: directories strictly first, otherwise
case-insensitive name comparison. -/
def entryRel (a b : DirEntry) : Prop :=
  (if a.isDirectory && !b.isDirectory then true
   else if !a.isDirectory && b.isDirectory then false
   else caseLe a.name b.name) = true

instance : DecidableRel entryRel := fun a b => by unfold entryRel; infer_instance

/-- `contents.sort(comparator)`: a stable sort by `entryRel` (JavaScript
array sort is stable; any stable sort with the same comparator produces
the same output). -/
def sortItems (l : List DirEntry) : List DirEntry :=
  List.insertionSort entryRel l

/-- Abstract filesystem state: a listing per directory path and a text
content per file path. -/
structure Fs where
  dirListings : List (String × List DirEntry)
  fileContents : List (String × String)
deriving Repr, DecidableEq

def Fs.lookupDir (fs : Fs) (p : String) : Option (List DirEntry) :=
  fs.dirListings.lookup p

def Fs.lookupFile (fs : Fs) (p : String) : Option String :=
  fs.fileContents.lookup p

def Fs.isDir (fs : Fs) (p : String) : Bool :=
  (fs.lookupDir p).isSome

/-- One observable filesystem call performed by a main-process handler. -/
inductive FsAction where
  | readdir (p : String)
  | stat (p : String)
  | readFile (p : String)
  | mkdir (p : String)
  | writeFile (p : String) (content : String)
deriving Repr, DecidableEq

/-- The `fs:getDirectoryContents` IPC handler: no-root guard, containment
check, `readdir` + a `stat` per entry, then the directories-first
case-insensitive sort.  Returns the result together with the filesystem
calls performed. -/
def getDirectoryContents (rootDirectory : Option String) (fs : Fs)
    (directoryPath : String) : Except String (List DirEntry) × List FsAction :=
  match rootDirectory with
  | none => (.error "No root directory set", [])
  | some rootDir =>
    if containsCheck rootDir directoryPath then
      match fs.lookupDir directoryPath with
      | none => (.error "ENOENT", [.readdir directoryPath])
      | some entries =>
        (.ok (sortItems entries),
         .readdir directoryPath :: entries.map (fun e => .stat e.path))
    else (.error "Path traversal attempt detected", [])

/-- The `fs:readFile` IPC handler: no-root guard, containment check,
existence/kind `stat`, then the read. -/
def readFileOp (rootDirectory : Option String) (fs : Fs)
    (filePath : String) : Except String String × List FsAction :=
  match rootDirectory with
  | none => (.error "No root directory set", [])
  | some rootDir =>
    if containsCheck rootDir filePath then
      match fs.lookupFile filePath with
      | some content => (.ok content, [.stat filePath, .readFile filePath])
      | none =>
        if fs.isDir filePath then (.error "Not a file", [.stat filePath])
        else (.error "File does not exist", [.stat filePath])
    else (.error "Path traversal attempt detected", [])

/-- The `fs:saveFile` IPC handler: no-root guard, containment check,
recursive parent-directory creation, then the write. -/
def saveFileOp (rootDirectory : Option String) (fs : Fs)
    (filePath content : String) : Except String Unit × List FsAction :=
  match rootDirectory with
  | none => (.error "No root directory set", [])
  | some rootDir =>
    if containsCheck rootDir filePath then
      (.ok (), [.mkdir (dirname filePath), .writeFile filePath content])
    else (.error "Path traversal attempt detected", [])

/-- One open file of the workspace (App.jsx file object). -/
structure OpenFile where
  path : String
  name : String
  content : String
  loaded : Bool
  modified : Bool
deriving Repr, DecidableEq

/-- The React `App` component state relevant to the workspace model. -/
structure AppState where
  openFiles : List OpenFile
  activeFile : Option String
  rootDirectory : String
deriving Repr, DecidableEq

/-- A value written to the persisted key/value config store. -/
inductive ConfigValue where
  | str (s : String)
  | strList (l : List String)
  | null
deriving Repr, DecidableEq

/-- One observable bridge call performed by a renderer callback. -/
inductive RendererAction where
  | readFileCall (p : String)
  | setConfig (key : String) (v : ConfigValue)
deriving Repr, DecidableEq

/-- `handleOpenFile` (App.jsx): bail out when no root is set or the path
fails the renderer containment test; if the path is already open, only
update the active selection; otherwise read the file over the bridge,
append a fresh entry, activate it and persist the list and selection.
A failed read leaves the state unchanged (the error is caught). -/
def handleOpenFile (fs : Fs) (st : AppState) (filePath : String) :
    AppState × List RendererAction :=
  if st.rootDirectory = "" then (st, [])
  else if !(rendererContains st.rootDirectory filePath) then (st, [])
  else if st.openFiles.any (fun f => f.path == filePath) then
    ({ st with activeFile := some filePath }, [])
  else
    match fs.lookupFile filePath with
    | none => (st, [.readFileCall filePath])
    | some content =>
      ({ st with
          openFiles := st.openFiles ++
            [{ path := filePath, name := fileNameOf filePath,
               content := content, loaded := true, modified := false }],
          activeFile := some filePath },
       [.readFileCall filePath,
        .setConfig "openFiles"
          (.strList (st.openFiles.map OpenFile.path ++ [filePath])),
        .setConfig "activeFile" (.str filePath)])

/-- `handleCloseFile` (App.jsx): filter the path out of the open list; if
it was the active file, the new active file is the first remaining entry
in list order, or none when the list became empty; persist the updated
list, and the updated selection when it changed. -/
def handleCloseFile (st : AppState) (filePath : String) :
    AppState × List RendererAction :=
  let remaining := st.openFiles.filter (fun f => !(f.path == filePath))
  let newActive : Option String :=
    if st.activeFile = some filePath then
      match remaining with
      | [] => none
      | f :: _ => some f.path
    else st.activeFile
  let openFilePaths := remaining.map OpenFile.path
  ({ st with openFiles := remaining, activeFile := newActive },
   .setConfig "openFiles" (.strList openFilePaths) ::
     (if st.activeFile = some filePath then
        match openFilePaths with
        | [] => [.setConfig "activeFile" .null]
        | q :: _ => [.setConfig "activeFile" (.str q)]
      else []))

/-- `handleSetRootDirectory` (App.jsx): store the new root in component
state and persist it.  Nothing else is touched. -/
def handleSetRootDirectory (st : AppState) (dir : String) :
    AppState × List RendererAction :=
  ({ st with rootDirectory := dir }, [.setConfig "rootDirectory" (.str dir)])

/-- `loadSavedFiles` (App.jsx startup restore): filter the persisted open
list by the renderer containment test against the current root; when any
path survives, materialize each survivor in order as an unloaded,
unmodified entry, then activate the persisted active file if it is a
surviving non-empty path, else the first survivor.  When nothing
survives the state is left untouched. -/
def loadSavedFiles (rootDir : String) (savedOpenFiles : List String)
    (lastActiveFile : Option String) (st : AppState) : AppState :=
  let validFiles := savedOpenFiles.filter (fun p => rendererContains rootDir p)
  match validFiles with
  | [] => st
  | v0 :: _ =>
    let opened := validFiles.map (fun p =>
      ({ path := p, name := fileNameOf p, content := "", loaded := false,
         modified := false } : OpenFile))
    let newActive : Option String :=
      match lastActiveFile with
      | some la => if la ≠ "" ∧ validFiles.contains la then some la else some v0
      | none => some v0
    { st with openFiles := opened, activeFile := newActive }

/-- Per-node state of a `FolderItem` in `FileTree.jsx`: the cached
children, the in-flight flag, the last fetch error, and whether the node
is currently expanded. -/
structure FolderState where
  children : List DirEntry
  loading : Bool
  error : Option String
  expanded : Bool
deriving Repr, DecidableEq

/-- An event against one tree node: an expand request, a collapse, or
the resolution of the in-flight `listDirectory` fetch. -/
inductive TreeEvent where
  | expand
  | collapse
  | resolve (r : Except String (List DirEntry))
deriving Repr

/-- The `loadChildren` effect of `FolderItem`: it issues a fetch (and
sets the in-flight flag) exactly when the node is expanded, its cached
children list is empty, and no fetch is already in flight.  The returned
flag records whether a `listDirectory` call was issued. -/
def runEffect (s : FolderState) : FolderState × Bool :=
  if s.expanded && s.children.isEmpty && !s.loading then
    ({ s with loading := true }, true)
  else (s, false)

/-- One step of the node state machine: apply the event, then run the
`loadChildren` effect (React re-runs the effect after every state
change).  Resolution stores the sorted listing, clears the in-flight
flag and the error; collapse only clears the expansion flag. -/
def treeStep (s : FolderState) (e : TreeEvent) : FolderState × Bool :=
  let s1 :=
    match e with
    | .expand => { s with expanded := true }
    | .collapse => { s with expanded := false }
    | .resolve (.ok entries) =>
      { s with children := sortItems entries, error := none, loading := false }
    | .resolve (.error msg) => { s with error := some msg, loading := false }
  runEffect s1

/-- Fold a list of events over a node state, counting the
`listDirectory` fetches issued along the way. -/
def treeRun (s : FolderState) (events : List TreeEvent) : FolderState × Nat :=
  events.foldl (fun acc e =>
    let r := treeStep acc.1 e
    (r.1, acc.2 + (if r.2 then 1 else 0))) (s, 0)

/-- A collapsed node that has never been fetched. -/
def unloadedFolder : FolderState :=
  { children := [], loading := false, error := none, expanded := false }

/-! ### Helper lemmas on the listing comparator -/

theorem lexLeNat_total : ∀ x y : List Nat, lexLeNat x y = true ∨ lexLeNat y x = true := by
  intro x
  induction x with
  | nil => intro y; left; rfl
  | cons a as ih =>
    intro y
    cases y with
    | nil => right; rfl
    | cons b bs =>
      simp only [lexLeNat]
      rcases Nat.lt_trichotomy a b with h | h | h
      · left; simp [h]
      · subst h
        simpa [Nat.lt_irrefl] using ih bs
      · right; simp [h, Nat.not_lt.mpr (Nat.le_of_lt h)]

theorem lexLeNat_trans :
    ∀ x y z : List Nat, lexLeNat x y = true → lexLeNat y z = true → lexLeNat x z = true := by
  intro x
  induction x with
  | nil => intro y z _ _; rfl
  | cons a as ih =>
    intro y z hxy hyz
    cases y with
    | nil => simp [lexLeNat] at hxy
    | cons b bs =>
      cases z with
      | nil => simp [lexLeNat] at hyz
      | cons c cs =>
        simp only [lexLeNat] at hxy hyz ⊢
        rcases Nat.lt_trichotomy a b with h1 | h1 | h1
        · rcases Nat.lt_trichotomy b c with h2 | h2 | h2
          · simp [Nat.lt_trans h1 h2]
          · subst h2; simp [h1]
          · simp [h2, Nat.not_lt.mpr (Nat.le_of_lt h2)] at hyz
        · subst h1
          rcases Nat.lt_trichotomy a c with h2 | h2 | h2
          · simp [h2]
          · subst h2
            simp only [Nat.lt_irrefl, if_false] at hxy hyz ⊢
            exact ih bs cs hxy hyz
          · simp [h2, Nat.not_lt.mpr (Nat.le_of_lt h2)] at hyz
        · simp [h1, Nat.not_lt.mpr (Nat.le_of_lt h1)] at hxy

instance entryRelTotal : IsTotal DirEntry entryRel := by
  constructor
  intro a b
  unfold entryRel caseLe
  cases a.isDirectory <;> cases b.isDirectory <;> simp <;>
    exact lexLeNat_total _ _

instance entryRelTrans : IsTrans DirEntry entryRel := by
  constructor
  intro a b c hab hbc
  unfold entryRel caseLe at hab hbc ⊢
  cases ha : a.isDirectory <;> cases hb : b.isDirectory <;> cases hc : c.isDirectory <;>
    simp [ha, hb, hc] at hab hbc ⊢ <;>
    exact lexLeNat_trans _ _ _ hab hbc

theorem sortItems_perm (l : List DirEntry) : (sortItems l).Perm l :=
  List.perm_insertionSort entryRel l

theorem sortItems_ne_nil {l : List DirEntry} (h : l ≠ []) : sortItems l ≠ [] := by
  intro hs
  exact h (List.Perm.eq_nil ((sortItems_perm l).symm.trans (hs ▸ List.Perm.refl _)))

/-! ### Claim theorems -/

/-- C1: the specification's PathGuard containment demands a
path-separator boundary after the root, rejecting the sibling-prefixed
candidate `/data2/secret` under root `/data`.  The code's check is a raw
string-prefix comparison of the normalized paths, which accepts that
candidate: evaluating both at the failing input exhibits the divergence
(and shows the two agree on the genuinely contained `/data/sub/file`). -/
theorem pathGuard_prefix_defect :
    containsCheck "/data" "/data2/secret" = true ∧
    validateSpecModel "/data" "/data2/secret" = false ∧
    validateSpecModel "/data" "/data/sub/file" = true ∧
    containsCheck "/data" "/data/sub/file" = true := by
  refine ⟨by decide, by decide, by decide, by decide⟩

/-- C2: with a root configured, every bridge operation whose path fails
the containment check returns the tagged path-traversal error and
performs no filesystem call at all. -/
theorem guard_short_circuit (rootDir : String) (fs : Fs) (p c : String)
    (h : containsCheck rootDir p = false) :
    getDirectoryContents (some rootDir) fs p
      = (.error "Path traversal attempt detected", []) ∧
    readFileOp (some rootDir) fs p
      = (.error "Path traversal attempt detected", []) ∧
    saveFileOp (some rootDir) fs p c
      = (.error "Path traversal attempt detected", []) := by
  refine ⟨?_, ?_, ?_⟩ <;> simp [getDirectoryContents, readFileOp, saveFileOp, h]

theorem guard_short_circuit_witness :
    containsCheck "/data" "/etc/passwd" = false ∧
    readFileOp (some "/data") ⟨[], []⟩ "/etc/passwd"
      = (.error "Path traversal attempt detected", []) :=
  ⟨by decide,
   (guard_short_circuit "/data" ⟨[], []⟩ "/etc/passwd" "x" (by decide)).2.1⟩

/-- C9: every listing is returned as a permutation of its input in which
no file precedes a directory, entries of the same kind appear in
case-insensitive name order, and the spec's concrete example sorts as
stated. -/
theorem listing_order (l : List DirEntry) :
    (sortItems l).Perm l ∧
    (sortItems l).Pairwise (fun a b =>
      (b.isDirectory = true → a.isDirectory = true) ∧
      (a.isDirectory = b.isDirectory → caseLe a.name b.name = true)) ∧
    sortItems
        [⟨"b.txt", "/d/b.txt", false, 7, "t1"⟩,
         ⟨"A", "/d/A", true, 0, "t2"⟩,
         ⟨"a.txt", "/d/a.txt", false, 3, "t3"⟩]
      = [⟨"A", "/d/A", true, 0, "t2"⟩,
         ⟨"a.txt", "/d/a.txt", false, 3, "t3"⟩,
         ⟨"b.txt", "/d/b.txt", false, 7, "t1"⟩] := by
  refine ⟨sortItems_perm l, ?_, by decide⟩
  have hs : (sortItems l).Pairwise entryRel := List.sorted_insertionSort entryRel l
  refine hs.imp ?_
  intro a b hab
  unfold entryRel at hab
  constructor
  · intro hb
    cases ha : a.isDirectory
    · simp [ha, hb] at hab
    · rfl
  · intro hep
    cases ha : a.isDirectory <;> simp [ha, ← hep] at hab ⊢ <;> exact hab

/-- C10: with no root directory configured, each of the three bridge
operations returns the tagged `No root directory set` error for every
argument path, touching nothing. -/
theorem no_root_guard (fs : Fs) (p c : String) :
    getDirectoryContents none fs p = (.error "No root directory set", []) ∧
    readFileOp none fs p = (.error "No root directory set", []) ∧
    saveFileOp none fs p c = (.error "No root directory set", []) :=
  ⟨rfl, rfl, rfl⟩

/-- C3 counterexample: replacing the root directory does not discard
open-file state.  With one file open under `/r1` and the root replaced
by the disjoint `/r2`, the open list is unchanged — it still holds a
path that is not contained in the new root (under either containment
test), so the workspace does not become empty as the claim states. -/
theorem rootChange_keeps_open_files :
    ((handleSetRootDirectory
        { openFiles := [⟨"/r1/a.md", "a.md", "hi", true, false⟩],
          activeFile := some "/r1/a.md", rootDirectory := "/r1" } "/r2").1).openFiles
      = [⟨"/r1/a.md", "a.md", "hi", true, false⟩] ∧
    validateSpecModel "/r2" "/r1/a.md" = false ∧
    rendererContains "/r2" "/r1/a.md" = false :=
  ⟨rfl, by decide, by decide⟩

/-- C3 (amended): replacing the root directory only updates and persists
the root; open files and the active selection are untouched at that
moment.  Pruning happens at the next startup restore: when every
persisted path fails the containment filter against the current root,
the restore leaves the (initially empty) workspace state unchanged. -/
theorem rootChange_pruning_at_restore :
    (∀ st dir,
      (handleSetRootDirectory st dir).1.openFiles = st.openFiles ∧
      (handleSetRootDirectory st dir).1.activeFile = st.activeFile ∧
      (handleSetRootDirectory st dir).1.rootDirectory = dir) ∧
    (∀ rootDir saved la st,
      (∀ p ∈ saved, rendererContains rootDir p = false) →
      loadSavedFiles rootDir saved la st = st) := by
  constructor
  · intro st dir
    exact ⟨rfl, rfl, rfl⟩
  · intro rootDir saved la st h
    have hf : saved.filter (fun p => rendererContains rootDir p) = [] := by
      rw [List.filter_eq_nil_iff]
      intro p hp
      simp [h p hp]
    simp [loadSavedFiles, hf]

theorem rootChange_pruning_at_restore_witness :
    (∀ p ∈ (["/r1/a.md", "/r1/b.md"] : List String),
        rendererContains "/r2" p = false) ∧
    loadSavedFiles "/r2" ["/r1/a.md", "/r1/b.md"] (some "/r1/a.md")
        ⟨[], none, "/r2"⟩
      = ⟨[], none, "/r2"⟩ :=
  ⟨by decide,
   rootChange_pruning_at_restore.2 "/r2" ["/r1/a.md", "/r1/b.md"]
     (some "/r1/a.md") ⟨[], none, "/r2"⟩ (by decide)⟩

/-- C5: closing a file removes exactly its entry, preserving the order
of the rest; when the closed file was active, the new active file is the
first remaining entry in list order (or none when the list emptied), and
otherwise the active selection is untouched. -/
theorem closeFile_deterministic (st : AppState) (p : String) :
    (handleCloseFile st p).1.openFiles
      = st.openFiles.filter (fun f => !(f.path == p)) ∧
    (st.activeFile = some p →
      (handleCloseFile st p).1.activeFile
        = (st.openFiles.filter (fun f => !(f.path == p))).head?.map OpenFile.path) ∧
    (st.activeFile ≠ some p →
      (handleCloseFile st p).1.activeFile = st.activeFile) := by
  refine ⟨rfl, ?_, ?_⟩
  · intro h
    have hm : (handleCloseFile st p).1.activeFile =
        (match st.openFiles.filter (fun f => !(f.path == p)) with
         | [] => none
         | f :: _ => some f.path) := by
      simp [handleCloseFile, h]
    rw [hm]
    cases st.openFiles.filter (fun f => !(f.path == p)) <;> simp
  · intro h
    simp [handleCloseFile, h]

theorem closeFile_deterministic_witness :
    (({ openFiles := [⟨"/A", "A", "", true, false⟩, ⟨"/B", "B", "", true, false⟩,
          ⟨"/C", "C", "", true, false⟩],
        activeFile := some "/B", rootDirectory := "/r" } : AppState).activeFile
      = some "/B") ∧
    (handleCloseFile
        { openFiles := [⟨"/A", "A", "", true, false⟩, ⟨"/B", "B", "", true, false⟩,
            ⟨"/C", "C", "", true, false⟩],
          activeFile := some "/B", rootDirectory := "/r" } "/B").1.activeFile
      = some "/A" :=
  ⟨rfl,
   ((closeFile_deterministic
       { openFiles := [⟨"/A", "A", "", true, false⟩, ⟨"/B", "B", "", true, false⟩,
           ⟨"/C", "C", "", true, false⟩],
         activeFile := some "/B", rootDirectory := "/r" } "/B").2.1 rfl).trans
     (by decide)⟩

/-- C6 counterexample: the startup filter is the raw renderer prefix
test, so a sibling-prefixed persisted path such as `/data2/secret.md`
survives restoration under root `/data` although it is not contained in
the root at a path-separator boundary — contradicting "every path not
contained in the current RootDirectory is filtered out". -/
theorem restore_keeps_sibling_path :
    (loadSavedFiles "/data" ["/data2/secret.md"] none
        ⟨[], none, "/data"⟩).openFiles.map OpenFile.path = ["/data2/secret.md"] ∧
    validateSpecModel "/data" "/data2/secret.md" = false :=
  ⟨by decide, by decide⟩

theorem loadSavedFiles_cons (rootDir : String) (saved : List String)
    (la : Option String) (st : AppState) (v0 : String) (vs : List String)
    (hf : saved.filter (fun p => rendererContains rootDir p) = v0 :: vs) :
    loadSavedFiles rootDir saved la st =
      { st with
        openFiles := (v0 :: vs).map (fun p =>
          ({ path := p, name := fileNameOf p, content := "", loaded := false,
             modified := false } : OpenFile)),
        activeFile :=
          match la with
          | some l => if l ≠ "" ∧ (v0 :: vs).contains l then some l else some v0
          | none => some v0 } := by
  simp only [loadSavedFiles, hf]

theorem mem_restore_filter_ne_empty {rootDir : String} {saved : List String}
    (hroot : rootDir ≠ "") {l : String}
    (hl : l ∈ saved.filter (fun p => rendererContains rootDir p)) : l ≠ "" := by
  intro hempty
  subst hempty
  have hc : rendererContains rootDir "" = true := (List.mem_filter.mp hl).2
  unfold rendererContains strStartsWith normalizeSeps at hc
  cases hd : rootDir.data with
  | nil =>
    apply hroot
    cases rootDir with
    | mk d => simp at hd; simp [hd]
  | cons c cs => rw [hd] at hc; simp [List.isPrefixOf] at hc

/-- C6 (amended): at startup the persisted open list is filtered by the
renderer's raw prefix containment test against the current root (so a
sibling-prefixed path also survives, see the counterexample); each
surviving path is materialized in original order as an unloaded,
unmodified entry; the persisted active file is activated when it
survived the filtering, else the first survivor; and when nothing
survives the workspace state is left untouched (no file active at
startup). -/
theorem startup_restore (rootDir : String) (saved : List String)
    (la : Option String) (st : AppState) (hroot : rootDir ≠ "") :
    (saved.filter (fun p => rendererContains rootDir p) = [] →
      loadSavedFiles rootDir saved la st = st) ∧
    (∀ v0 vs, saved.filter (fun p => rendererContains rootDir p) = v0 :: vs →
      (loadSavedFiles rootDir saved la st).openFiles.map OpenFile.path = v0 :: vs ∧
      (∀ f ∈ (loadSavedFiles rootDir saved la st).openFiles,
        f.loaded = false ∧ f.modified = false) ∧
      (loadSavedFiles rootDir saved la st).activeFile =
        (match la with
         | some l => if l ∈ v0 :: vs then some l else some v0
         | none => some v0)) := by
  constructor
  · intro hf
    simp [loadSavedFiles, hf]
  · intro v0 vs hf
    rw [loadSavedFiles_cons rootDir saved la st v0 vs hf]
    refine ⟨?_, ?_, ?_⟩
    · have hfun : (OpenFile.path ∘ fun p =>
          ({ path := p, name := fileNameOf p, content := "", loaded := false,
             modified := false } : OpenFile)) = id := rfl
      show List.map OpenFile.path _ = v0 :: vs
      rw [List.map_map, hfun, List.map_id]
    · intro f hfm
      obtain ⟨p, -, hp⟩ := List.mem_map.mp hfm
      rw [← hp]
      exact ⟨rfl, rfl⟩
    · cases la with
      | none => rfl
      | some l =>
        by_cases hmem : l ∈ v0 :: vs
        · have hne : l ≠ "" :=
            mem_restore_filter_ne_empty hroot (hf ▸ hmem)
          simp [hmem, hne]
        · simp [hmem]

theorem startup_restore_witness :
    ("/data" ≠ "") ∧
    (["/data/b.md", "/tmp/x.md", "/data/a.md"].filter
        (fun p => rendererContains "/data" p) = ["/data/b.md", "/data/a.md"]) ∧
    (loadSavedFiles "/data" ["/data/b.md", "/tmp/x.md", "/data/a.md"]
        (some "/data/a.md") ⟨[], none, "/data"⟩).openFiles.map OpenFile.path
      = ["/data/b.md", "/data/a.md"] ∧
    (loadSavedFiles "/data" ["/data/b.md", "/tmp/x.md", "/data/a.md"]
        (some "/data/a.md") ⟨[], none, "/data"⟩).activeFile = some "/data/a.md" := by
  refine ⟨by decide, by decide, ?_, ?_⟩
  · exact ((startup_restore "/data" ["/data/b.md", "/tmp/x.md", "/data/a.md"]
      (some "/data/a.md") ⟨[], none, "/data"⟩ (by decide)).2 "/data/b.md"
      ["/data/a.md"] (by decide)).1
  · exact (((startup_restore "/data" ["/data/b.md", "/tmp/x.md", "/data/a.md"]
      (some "/data/a.md") ⟨[], none, "/data"⟩ (by decide)).2 "/data/b.md"
      ["/data/a.md"] (by decide)).2.2).trans (by decide)

/-- Recognizer for bridge read calls, used to count `readFile` calls in
renderer traces. -/
def isReadCall : RendererAction → Bool
  | .readFileCall _ => true
  | _ => false

/-- C4: opening the same openable path twice leaves exactly one open
entry for it, issues exactly one bridge `readFile` call across both
invocations (the second invocation produces no calls and only updates
the active selection), and ends with that path active. -/
theorem openFile_idempotent (fs : Fs) (st : AppState) (x c : String)
    (hroot : st.rootDirectory ≠ "")
    (hin : rendererContains st.rootDirectory x = true)
    (hread : fs.lookupFile x = some c)
    (hnew : ∀ f ∈ st.openFiles, f.path ≠ x) :
    (handleOpenFile fs (handleOpenFile fs st x).1 x).1.openFiles.countP
        (fun f => f.path == x) = 1 ∧
    ((handleOpenFile fs st x).2
        ++ (handleOpenFile fs (handleOpenFile fs st x).1 x).2).countP isReadCall = 1 ∧
    (handleOpenFile fs (handleOpenFile fs st x).1 x).1.activeFile = some x ∧
    (handleOpenFile fs (handleOpenFile fs st x).1 x).1.openFiles
      = (handleOpenFile fs st x).1.openFiles := by
  have hany : st.openFiles.any (fun f => f.path == x) = false := by
    rw [List.any_eq_false]
    intro f hf
    simp [hnew f hf]
  have h1 : handleOpenFile fs st x =
      ({ st with
          openFiles := st.openFiles ++
            [{ path := x, name := fileNameOf x, content := c, loaded := true,
               modified := false }],
          activeFile := some x },
       [.readFileCall x,
        .setConfig "openFiles" (.strList (st.openFiles.map OpenFile.path ++ [x])),
        .setConfig "activeFile" (.str x)]) := by
    simp [handleOpenFile, hroot, hin, hany, hread]
  rw [h1]
  have h2 : handleOpenFile fs
      ({ st with
          openFiles := st.openFiles ++
            [{ path := x, name := fileNameOf x, content := c, loaded := true,
               modified := false }],
          activeFile := some x } : AppState) x =
      ({ st with
          openFiles := st.openFiles ++
            [{ path := x, name := fileNameOf x, content := c, loaded := true,
               modified := false }],
          activeFile := some x }, []) := by
    simp [handleOpenFile, hroot, hin]
  rw [h2]
  refine ⟨?_, ?_, rfl, rfl⟩
  · have h0 : st.openFiles.countP (fun f => f.path == x) = 0 := by
      rw [List.countP_eq_zero]
      intro f hf
      simp [hnew f hf]
    simp [List.countP_append, h0, List.countP_cons]
  · simp [List.countP_append, List.countP_cons, isReadCall]

theorem openFile_idempotent_witness :
    (("/r" : String) ≠ "") ∧
    rendererContains "/r" "/r/a.md" = true ∧
    (Fs.lookupFile ⟨[], [("/r/a.md", "hi")]⟩ "/r/a.md" = some "hi") ∧
    (∀ f ∈ ([] : List OpenFile), f.path ≠ "/r/a.md") ∧
    (handleOpenFile ⟨[], [("/r/a.md", "hi")]⟩
        (handleOpenFile ⟨[], [("/r/a.md", "hi")]⟩ ⟨[], none, "/r"⟩ "/r/a.md").1
        "/r/a.md").1.openFiles.countP (fun f => f.path == "/r/a.md") = 1 ∧
    (handleOpenFile ⟨[], [("/r/a.md", "hi")]⟩
        (handleOpenFile ⟨[], [("/r/a.md", "hi")]⟩ ⟨[], none, "/r"⟩ "/r/a.md").1
        "/r/a.md").1.activeFile = some "/r/a.md" := by
  have h := openFile_idempotent ⟨[], [("/r/a.md", "hi")]⟩ ⟨[], none, "/r"⟩
    "/r/a.md" "hi" (by decide) (by decide) (by decide) (by simp)
  exact ⟨by decide, by decide, by decide, by simp, h.1, h.2.2.1⟩

/-- C7 counterexample: the claim's scenario fails for a node whose
listing is empty.  Two expand requests against an unloaded node followed
by the resolution of the (single) in-flight fetch with an empty listing
yield two `listDirectory` fetches, not the claimed exactly one: storing
the empty children list re-arms the `children.length === 0` test and the
effect immediately re-issues the fetch, so no stable loaded state is
reached either. -/
theorem double_expand_empty_refetch :
    (treeRun unloadedFolder [.expand, .expand, .resolve (.ok [])]).2 = 2 ∧
    (treeRun unloadedFolder [.expand, .expand, .resolve (.ok [])]).1.loading
      = true :=
  ⟨by decide, by decide⟩

/-- C7 (amended): while a node's fetch is in flight, a further expand
request against it is a no-op that issues no fetch — this holds for
every node, so at most one fetch is ever in flight per node; and for a
node whose listing is non-empty, two expand requests from the unloaded
state followed by the fetch resolution produce exactly one fetch and one
final transition to the loaded state, the second request having changed
nothing.  A node whose listing resolves empty is immediately re-fetched
upon resolution (see the counterexample), the same
`children.length === 0` defect as in the collapse/re-expand claim. -/
theorem expand_coalesced (s : FolderState) (entries : List DirEntry)
    (hload : s.loading = true) (hne : entries ≠ []) :
    treeStep s .expand = ({ s with expanded := true }, false) ∧
    (treeRun unloadedFolder [.expand, .expand]).2 = 1 ∧
    (treeRun unloadedFolder [.expand, .expand]).1
      = (treeRun unloadedFolder [.expand]).1 ∧
    treeRun unloadedFolder [.expand, .expand, .resolve (.ok entries)]
      = ({ children := sortItems entries, loading := false, error := none,
           expanded := true }, 1) := by
  obtain ⟨a, t, hq⟩ : ∃ a t, sortItems entries = a :: t := by
    cases hq : sortItems entries with
    | nil => exact absurd hq (sortItems_ne_nil hne)
    | cons a t => exact ⟨a, t, rfl⟩
  refine ⟨?_, by decide, by decide, ?_⟩
  · simp [treeStep, runEffect, hload]
  · simp [treeRun, treeStep, runEffect, unloadedFolder, hq]

theorem expand_coalesced_witness :
    (({ children := [], loading := true, error := none,
        expanded := true } : FolderState).loading = true) ∧
    (([⟨"a.txt", "/d/a.txt", false, 1, "t"⟩] : List DirEntry) ≠ []) ∧
    treeStep { children := [], loading := true, error := none, expanded := true }
        .expand
      = ({ children := [], loading := true, error := none, expanded := true },
         false) ∧
    treeRun unloadedFolder
        [.expand, .expand, .resolve (.ok [⟨"a.txt", "/d/a.txt", false, 1, "t"⟩])]
      = ({ children := [⟨"a.txt", "/d/a.txt", false, 1, "t"⟩], loading := false,
           error := none, expanded := true }, 1) := by
  have h := expand_coalesced
    { children := [], loading := true, error := none, expanded := true }
    [⟨"a.txt", "/d/a.txt", false, 1, "t"⟩] rfl (by decide)
  exact ⟨rfl, by decide, h.1, h.2.2.2.trans (by decide)⟩

/-- C8 counterexample: the code decides "not yet loaded" by
`children.length === 0`, so a directory whose listing is empty is
fetched again: expanding it and receiving the empty listing already
re-issues the fetch, and the collapse/re-expand cycle of the claim's
scenario ends with two `listDirectory` calls instead of the claimed
single one. -/
theorem empty_folder_refetch :
    (treeRun unloadedFolder [.expand, .resolve (.ok [])]).2 = 2 ∧
    (treeRun unloadedFolder [.expand, .resolve (.ok []), .collapse, .expand]).2
      = 2 :=
  ⟨by decide, by decide⟩

/-- C8 (amended): collapsing never touches the cached children, the
in-flight flag or the error (it only clears the expansion flag) and
issues no fetch; for a node whose fetched listing is non-empty,
expand / resolve / collapse / re-expand performs exactly one fetch in
total, the cached children being reused on re-expansion.  A node whose
fetched listing is empty is re-fetched, because the code tests
`children.length === 0` (see the counterexample). -/
theorem cached_reexpand (entries : List DirEntry) (hne : entries ≠ []) :
    (∀ s, treeStep s .collapse = ({ s with expanded := false }, false)) ∧
    treeRun unloadedFolder [.expand, .resolve (.ok entries), .collapse, .expand]
      = ({ children := sortItems entries, loading := false, error := none,
           expanded := true }, 1) := by
  obtain ⟨a, t, hq⟩ : ∃ a t, sortItems entries = a :: t := by
    cases hq : sortItems entries with
    | nil => exact absurd hq (sortItems_ne_nil hne)
    | cons a t => exact ⟨a, t, rfl⟩
  constructor
  · intro s
    simp [treeStep, runEffect]
  · simp [treeRun, treeStep, runEffect, unloadedFolder, hq]

theorem cached_reexpand_witness :
    (([⟨"a.txt", "/d/a.txt", false, 1, "t"⟩] : List DirEntry) ≠ []) ∧
    treeRun unloadedFolder
        [.expand, .resolve (.ok [⟨"a.txt", "/d/a.txt", false, 1, "t"⟩]),
         .collapse, .expand]
      = ({ children := [⟨"a.txt", "/d/a.txt", false, 1, "t"⟩], loading := false,
           error := none, expanded := true }, 1) :=
  ⟨by decide,
   ((cached_reexpand [⟨"a.txt", "/d/a.txt", false, 1, "t"⟩] (by decide)).2).trans
     (by decide)⟩

end AiNotes
